import Mathlib

/-!
Verification development for the `pbf` street-merge engine
(`src/command/street_merge.go`).

Modelling conventions, used throughout:

* Coordinates are modelled as exact rationals (`ℚ`).  The Go code stores
  them in IEEE-754 doubles; all decision predicates of the merge engine
  compare Euclidean distances (`math.Sqrt` of a sum of squares) with
  constants or with each other.  Since `Real.sqrt` is strictly monotone on
  nonnegative reals, every comparison `d₁ < d₂`, `d₁ = d₂`, `d₁ > d₂` of
  distances holds iff the same comparison holds of the squared distances,
  so the model works with squared distances throughout and squares the
  tolerance constants at each comparison site.  (Floating-point rounding is
  not modelled; the decimal literals `0.003`, `0.00065`, ... are taken at
  their exact decimal value.)

* Path lengths (`geo.Path.Distance()`, a sum of square roots) are
  irrational-valued; they are only ever used to *order* streets (sorting,
  longest-street selection).  The model abstracts this quantity as an
  explicit parameter `plen : List PointQ → ℚ`; every theorem proved below
  holds for an arbitrary `plen`, in particular for (any rational
  approximation order of) the real path length.

* The float cosine test `isTwoPathsSameDirection` of the grouping/merge
  stages is likewise passed around as an abstract boolean parameter
  `sameDir`; the claims about the merge loops proved below hold for every
  instantiation.  The NaN behaviour of the cosine itself is modelled
  separately (see `cosBetween2Vectors` further down), parameterised by an
  abstract square-root function.

* The external library `github.com/paulmach/go.geo` is not part of this
  repository; the few operations the engine uses (`First`, `Last`, `Push`,
  `Point.Equals`, `Line.Intersects`, `Path.IntersectsPath`) are modelled
  from their documented semantics, noted at each definition.
-/

/- The `Rat` arithmetic operations are shipped `@[irreducible]`; make them
reducible again so that concrete statements about the model evaluate by
`decide`. -/
unseal Rat.add Rat.mul Rat.inv Rat.sub

namespace Pbf

/-- A planar point `(lon, lat)`; models `geo.Point` with exact coordinates. -/
structure PointQ where
  x : ℚ
  y : ℚ
deriving DecidableEq, Repr

/-- Squared Euclidean distance.  Models `geo.Point.DistanceFrom` (which is
`math.Sqrt` of this quantity); see the header for why the squared value is
an exact proxy in every comparison the engine makes. -/
def distSq (p q : PointQ) : ℚ :=
  (p.x - q.x) * (p.x - q.x) + (p.y - q.y) * (p.y - q.y)

/-- Segment intersection test, modelled from the external go.geo
`Line.Intersects`: the standard parametric test with inclusive endpoints;
collinear segments intersect iff their bounding ranges overlap. -/
def segIntersect (a1 a2 b1 b2 : PointQ) : Bool :=
  let rx := a2.x - a1.x
  let ry := a2.y - a1.y
  let sx := b2.x - b1.x
  let sy := b2.y - b1.y
  let denom := rx * sy - ry * sx
  let qpx := b1.x - a1.x
  let qpy := b1.y - a1.y
  let numer := qpx * ry - qpy * rx
  if denom = 0 then
    if numer = 0 then
      -- collinear: do the coordinate ranges overlap?
      decide (max (min a1.x a2.x) (min b1.x b2.x) ≤ min (max a1.x a2.x) (max b1.x b2.x) ∧
        max (min a1.y a2.y) (min b1.y b2.y) ≤ min (max a1.y a2.y) (max b1.y b2.y))
    else false
  else
    let u := numer / denom
    let t := (qpx * sy - qpy * sx) / denom
    decide (0 ≤ t ∧ t ≤ 1 ∧ 0 ≤ u ∧ u ≤ 1)

/-- The list of line segments of a path (consecutive point pairs). -/
def pathSegments (p : List PointQ) : List (PointQ × PointQ) :=
  p.zip p.tail

/-- First point of a path; models `geo.Path.First()` (paths produced by the
program are nonempty, so the default is never observed there). -/
def firstPt (p : List PointQ) : PointQ :=
  p.headD ⟨0, 0⟩

/-- Last point of a path; models `geo.Path.Last()`. -/
def lastPt (p : List PointQ) : PointQ :=
  p.getLastD ⟨0, 0⟩

/-- Full polyline intersection, modelled from the external go.geo
`Path.IntersectsPath`: some segment of one path intersects some segment of
the other.  (The library short-circuits through bounding-box checks, which
are sound optimisations and do not change the result.) -/
def intersectsPathB (p q : List PointQ) : Bool :=
  (pathSegments p).any fun s =>
    (pathSegments q).any fun t => segIntersect s.1 s.2 t.1 t.2

/-- Model of `isIntersection` from the source: intersection of the two straight
chords from `First()` to `Last()` only.  (Defined in the source but not
called by any merge stage.) -/
def isIntersection (path1 path2 : List PointQ) : Bool :=
  segIntersect (firstPt path1) (lastPt path1) (firstPt path2) (lastPt path2)

/-- A street fragment; models `type street struct`.  `pid` stands for the
identity of the `*geo.Path` pointer (the final merge stage compares paths
by pointer to skip duplicated entries). -/
structure Street where
  pid : Nat
  path : List PointQ
  name : String
  oneway : String
deriving DecidableEq, Repr

def defaultStreet : Street := ⟨0, [], "", ""⟩

/-- Indexing into a street slice (indices produced by the loops are always
in bounds when used). -/
def getStreet (l : List Street) (i : Nat) : Street :=
  l.getD i defaultStreet

/-- Model of `removeStreet` from the source: rebuilds the slice skipping the given
index (a negative index matches nothing and yields a copy, exactly as the
Go loop does). -/
def removeStreet (s : List Street) (index : ℤ) : List Street :=
  (s.enum.filter fun p => ¬((p.1 : ℤ) = index)).map Prod.snd

/-- Model of `removeRoundabout` from the source: the removal loop with the `i--`
compensation is extensionally the filter keeping streets whose first and
last points differ (`DistanceFrom == 0` iff the squared distance is 0). -/
def removeRoundabout (streets : List Street) : List Street :=
  streets.filter fun st => ¬distSq (firstPt st.path) (lastPt st.path) = 0

/-- Model of `getShortestDistance` (squared): minimum over the four endpoint
pairings, computed by the same chain of updates as the source. -/
def getShortestDistanceSq (path1 path2 : List PointQ) : ℚ :=
  let s1 := distSq (firstPt path1) (firstPt path2)
  let s2 := if s1 > distSq (firstPt path1) (lastPt path2) then
    distSq (firstPt path1) (lastPt path2) else s1
  let s3 := if s2 > distSq (lastPt path1) (firstPt path2) then
    distSq (lastPt path1) (firstPt path2) else s2
  if s3 > distSq (lastPt path1) (lastPt path2) then
    distSq (lastPt path1) (lastPt path2) else s3

/-- Model of `shortestDistanceWhenSameDirection` (squared): minimum over the two
same-direction endpoint pairings. -/
def shortestDistanceWhenSameDirectionSq (path1 path2 : List PointQ) : ℚ :=
  let s1 := distSq (lastPt path1) (firstPt path2)
  if s1 > distSq (firstPt path1) (lastPt path2) then
    distSq (firstPt path1) (lastPt path2) else s1

/-- Model of `shortestDistanceToOtherStreets` (squared): 0 for an empty list, else
the minimum of `getShortestDistance` over the list. -/
def shortestDistanceToOtherStreetsSq (current : Street) (streets : List Street) : ℚ :=
  match streets with
  | [] => 0
  | s0 :: rest =>
    rest.foldl
      (fun acc s =>
        if acc > getShortestDistanceSq current.path s.path then
          getShortestDistanceSq current.path s.path else acc)
      (getShortestDistanceSq current.path s0.path)

/-- Model of `shortestDistanceToOtherSameDirectionStreets` (squared). -/
def shortestDistanceToOtherSameDirectionStreetsSq (current : Street) (streets : List Street) : ℚ :=
  match streets with
  | [] => 0
  | s0 :: rest =>
    rest.foldl
      (fun acc s =>
        if acc > shortestDistanceWhenSameDirectionSq current.path s.path then
          shortestDistanceWhenSameDirectionSq current.path s.path else acc)
      (shortestDistanceWhenSameDirectionSq current.path s0.path)

/-- Model of `getLongestStreetIndex` from the source: index of the first street of
maximal length, scanning with a running maximum that starts at 0. -/
def getLongestStreetIndex (plen : List PointQ → ℚ) (streets : List Street) : Nat :=
  (streets.enum.foldl
    (fun acc p => if acc.1 < plen p.2.path then (plen p.2.path, p.1) else acc)
    ((0 : ℚ), 0)).2

/-- Inner loop of `sortStreetsDescLength`: for `j` from its start value
while `j < len(l)`, swap `l[i]` and `l[j]` whenever `l[j]` is longer.  The
fuel argument only bounds the iteration count so the recursion is
structural; since the length is invariant, `l.length` iterations always
suffice and callers pass more. -/
def sortInner (plen : List PointQ → ℚ) (i : Nat) : Nat → List Street → Nat → List Street
  | 0, l, _ => l
  | fuel + 1, l, j =>
    if j < l.length then
      if plen (getStreet l j).path > plen (getStreet l i).path then
        sortInner plen i fuel ((l.set i (getStreet l j)).set j (getStreet l i)) (j + 1)
      else
        sortInner plen i fuel l (j + 1)
    else l

/-- Outer loop of `sortStreetsDescLength`, for `i` while
`i < len(l) - 1`, again with ample fuel. -/
def sortOuter (plen : List PointQ → ℚ) : Nat → List Street → Nat → List Street
  | 0, l, _ => l
  | fuel + 1, l, i =>
    if i < l.length - 1 then
      sortOuter plen fuel (sortInner plen i (l.length + 1) l i) (i + 1)
    else l

/-- Model of `sortStreetsDescLength` from the source: the exact double-loop
selection sort (its particular output permutation matters for ordering
claims, so it is modelled operation for operation). -/
def sortStreetsDescLength (plen : List PointQ → ℚ) (l : List Street) : List Street :=
  sortOuter plen (l.length + 1) l 0

/-! ### Association-list model of Go maps

All maps built by the engine go from string keys to street slices.  Go map
*iteration* order is unspecified; wherever the source ranges over a map the
model takes an explicit entry list, so the iteration order becomes a
parameter that theorems can quantify over. -/

/-- Model of `m[k] = append(m[k], st)` on a map modelled as an entry list. -/
def appendEntry (m : List (String × List Street)) (k : String) (st : Street) :
    List (String × List Street) :=
  if (m.lookup k).isSome then
    m.map fun e => if e.1 = k then (e.1, e.2 ++ [st]) else e
  else m ++ [(k, [st])]

/-- Model of `m[k] = v` (overwriting assignment) on a map modelled as an entry list. -/
def setEntry (m : List (String × List Street)) (k : String) (v : List Street) :
    List (String × List Street) :=
  if (m.lookup k).isSome then
    m.map fun e => if e.1 = k then (e.1, v) else e
  else m ++ [(k, v)]

/-! ### Name normalisation (S2)

`strings.ToLower`, the `removeAccent` table fold and the noise filter from
the first loop of `joinStreets`. -/

/-- Uppercase Vietnamese letters occurring in the data of the program. -/
def viUpper : List Char :=
  "ÀÁÂÃÈÉÊÌÍÒÓÔÕÙÚÝĂĐĨŨƠƯẠẢẤẦẨẪẬẮẰẲẴẶẸẺẼẾỀỂỄỆỈỊỌỎỐỒỔỖỘỚỜỞỠỢỤỦỨỪỬỮỰỸỲỶỴ".data

/-- Their lowercase counterparts (Unicode simple case mapping). -/
def viLower : List Char :=
  "àáâãèéêìíòóôõùúýăđĩũơưạảấầẩẫậắằẳẵặẹẻẽếềểễệỉịọỏốồổỗộớờởỡợụủứừửữựỹỳỷỵ".data

/-- Models Go `strings.ToLower` on one code point, restricted to the
alphabet this program processes (ASCII plus the Vietnamese letters above);
the full Unicode case mapping of Go agrees with this table on those points. -/
def toLowerChar (c : Char) : Char :=
  if 65 ≤ c.toNat ∧ c.toNat ≤ 90 then Char.ofNat (c.toNat + 32)
  else (((viUpper.zip viLower).lookup c).getD c)

/-- Models Go `strings.ToLower`. -/
def toLowerGo (s : String) : String :=
  ⟨s.data.map toLowerChar⟩

/-- Models Go `strings.HasPrefix`: a byte-level prefix test, which on
valid UTF-8 is the code-point-level prefix test. -/
def hasPrefixGo (s pre : String) : Bool :=
  pre.data.isPrefixOf s.data

/-- Everything before the first `"__"`; models
`strings.Split(s, "__")[0]`. -/
def splitKeyAux : List Char → List Char
  | [] => []
  | '_' :: '_' :: _ => []
  | c :: rest => c :: splitKeyAux rest

/-- The `__`-stripped bucket key used by `mergeStreet`. -/
def baseKey (s : String) : String :=
  ⟨splitKeyAux s.data⟩

/-- Byte-order comparison of Go strings (`sort.Strings` order), as
code-point lexicographic order on the rune lists. -/
def charListLe : List Char → List Char → Bool
  | [], _ => true
  | _ :: _, [] => false
  | a :: as, b :: bs => if a < b then true else if b < a then false else charListLe as bs

/-- Model of the `sort.Strings` ordering on strings. -/
def goStrLe (a b : String) : Bool :=
  charListLe a.data b.data

/-- The `SOURCE_CHARACTERS` table literal from the source (as code points;
`stringToRune` splits the Go string into exactly these runes).  Note the
table is *not* sorted: the trailing block `ỹỳỷỵỸỲỶỴ` is out of order. -/
def SOURCE_CHARACTERS : List Char :=
  "ÀÁÂÃÈÉÊÌÍÒÓÔÕÙÚÝàáâãèéêìíòóôõùúýĂăĐđĨĩŨũƠơƯưẠạẢảẤấẦầẨẩẪẫẬậẮắẰằẲẳẴẵẶặẸẹẺẻẼẽẾếỀềỂểỄễỆệỈỉỊịỌọỎỏỐốỒồỔổỖỗỘộỚớỜờỞởỠỡỢợỤụỦủỨứỪừỬửỮữỰựỹỳỷỵỸỲỶỴ".data

/-- The `DESTINATION_CHARACTERS` table literal from the source. -/
def DESTINATION_CHARACTERS : List Char :=
  "AAAAEEEIIOOOOUUYaaaaeeeiioooouuyAaDdIiUuOoUuAaAaAaAaAaAaAaAaAaAaAaAaEeEeEeEeEeEeEeEeIiIiOoOoOoOoOoOoOoOoOoOoOoOoUuUuUuUuUuUuUuyyyyyyyy".data

/-- Model of `LL_LENGTH` from the source (the rune count, 134). -/
def LL_LENGTH : Nat := SOURCE_CHARACTERS.length

/-- The array `stringToRune` actually returns: `make([]string, ll+1)` holds
the runes at indices `0..ll-1` and the zero value `""` at index `ll`
(modelled as `none`). -/
def sourceArr : List (Option Char) := SOURCE_CHARACTERS.map some ++ [none]

/-- The destination array, with the same trailing zero-value entry. -/
def destArr : List (Option Char) := DESTINATION_CHARACTERS.map some ++ [none]

/-- Model of `binarySearch` from the source.  Entries are single-rune strings plus
the `""` sentinel; Go compares strings by UTF-8 bytes, which for single
code points is code-point order, and a nonempty key is never equal to nor
less than `""` (so a `none` entry always sends the search right).  The Go
`(low+high)/2` is truncating division, which agrees with the Lean division
on the nonnegative values arising here.  The fuel argument only bounds the
recursion depth so the model is structural: each call strictly shrinks the
interval `[low, high]` (the midpoint lies inside it), so a fuel beyond the
array length is never exhausted; `removeAccentChar` passes ample fuel. -/
def binarySearch (arr : List (Option Char)) (key : Char) : Nat → Int → Int → Int
  | 0, _, _ => -1
  | fuel + 1, low, high =>
    if high < low then -1
    else
      let middle := (low + high) / 2
      match arr.getD middle.toNat none with
      | none => binarySearch arr key fuel (middle + 1) high
      | some c =>
        if key = c then middle
        else if key < c then binarySearch arr key fuel low (middle - 1)
        else binarySearch arr key fuel (middle + 1) high

/-- Model of `removeAccentChar` from the source (the search runs over the full
`[0, LL_LENGTH]` range, sentinel included; a hit at index `i < 134` reads
the destination table at `i`). -/
def removeAccentChar (c : Char) : Char :=
  let index := binarySearch sourceArr c (sourceArr.length + 1) 0 (LL_LENGTH : Int)
  if 0 ≤ index then (destArr.getD index.toNat none).getD c else c

/-- The hard-coded `strings.ReplaceAll` pre-pass of `removeAccent`, in
source order with its duplicated entries.  Each replacement maps one code
point to one code point, so on the rune level `ReplaceAll` is a map. -/
def replacePairs : List (Char × Char) :=
  [('ỷ','y'), ('ỳ','y'), ('ỵ','y'), ('ỳ','y'), ('ý','y'),
   ('ố','o'), ('ộ','o'), ('ợ','o'), ('ồ','o'), ('ờ','o'), ('ỗ','o'), ('ở','o'),
   ('ó','o'), ('ỏ','o'), ('õ','o'), ('ò','o'), ('ò','o'), ('ọ','o'),
   ('ð','d'),
   ('ằ','a'), ('ầ','a'), ('ậ','a'), ('ẩ','a'), ('ấ','a'), ('ã','a'), ('ã','a'),
   ('à','a'), ('ạ','a'), ('á','a'), ('ả','a'),
   ('ễ','e'), ('ệ','e'), ('ề','e'), ('ế','e'), ('ẹ','e'), ('è','e'), ('é','e'),
   ('ẽ','e'), ('ẻ','e'),
   ('ì','i'), ('ị','i'), ('į','i'), ('í','i'), ('ĩ','i'), ('ỉ','i'),
   ('ữ','u'), ('ứ','u'), ('ự','u'), ('ũ','u'), ('ù','u'), ('ủ','u'), ('ụ','u'), ('ú','u')]

/-- The sequence of `ReplaceAll` calls at the top of `removeAccent`. -/
def replacePass (l : List Char) : List Char :=
  replacePairs.foldl (fun l p => l.map fun c => if c = p.1 then p.2 else c) l

/-- Model of `removeAccent` from the source: the replace pre-pass followed by the
per-rune binary-search fold. -/
def removeAccent (s : String) : String :=
  ⟨(replacePass s.data).map removeAccentChar⟩

/-- The noise filter of the `joinStreets` normalisation loop: the four folded
markers checked with `strings.HasPrefix`, plus the special-cased exact
name. -/
def noiseFiltered (normName : String) : Bool :=
  (hasPrefixGo normName "kiet" || hasPrefixGo normName "hem" ||
    hasPrefixGo normName "cau" || hasPrefixGo normName "vong xuyen") ||
    normName == "ngo chu huy man"

/-- One iteration of the `joinStreets` normalisation loop (S2), building the
name map: lowercase, accent-fold, noise filter, `"duong "` prepend when
the accent-bearing lowercased name does not start with `"đường"`, external
parse (abstracted as a function `parser`), drop on empty result, else
rename the street to the parsed key and append it to the bucket of that key. -/
def normalizeStep (parser : String → String) (m : List (String × List Street))
    (st : Street) : List (String × List Street) :=
  let normNameHasSign := toLowerGo st.name
  let normName := removeAccent normNameHasSign
  if hasPrefixGo normName "kiet" || hasPrefixGo normName "hem" ||
      hasPrefixGo normName "cau" || hasPrefixGo normName "vong xuyen" then m
  else if normName == "ngo chu huy man" then m
  else
    let parsed := if ¬hasPrefixGo normNameHasSign "đường" then
      parser ("duong " ++ normName) else parser normName
    if parsed == "" then m
    else appendEntry m parsed { st with name := parsed }

/-- The full normalisation loop over the input street list. -/
def buildNameMap (parser : String → String) (streets : List Street) :
    List (String × List Street) :=
  streets.foldl (normalizeStep parser) []

/-! ### The external street-name parser call -/

/-- Models the JSON `Classification` record. -/
structure Classification where
  value : String
  label : String
deriving DecidableEq, Repr

/-- Models the JSON `Solution` record. -/
structure Solution where
  score : Int
  classifications : List Classification
deriving DecidableEq, Repr

/-- Models the JSON `Response` record; the Go zero value is
`⟨[]⟩` (no solutions). -/
structure Response where
  solutions : List Solution
deriving DecidableEq, Repr

/-- The classification loop of `streetNameParser`: return `""` at the
first `housenumber` label, otherwise remember the value of each `street`
label (later ones overwrite) and return the accumulator at the end. -/
def classLoop : List Classification → String → String
  | [], streetName => streetName
  | c :: rest, streetName =>
    if c.label = "housenumber" then ""
    else if c.label = "street" then classLoop rest c.value
    else classLoop rest streetName

/-- The pure tail of `streetNameParser`: what it returns once a `Response`
value has been decoded.  Only `solutions[0].classifications` is ever
consulted, behind the nonemptiness guard. -/
def streetNameFromResponse (r : Response) : String :=
  if 0 < r.solutions.length ∧ 0 < ((r.solutions.headD ⟨0, []⟩).classifications).length then
    classLoop (r.solutions.headD ⟨0, []⟩).classifications ""
  else ""

/-- Spec-side comparator for the claim about `streetNameParser`: the value
of the last classification labelled `street`, or `""` when there is none.
(Stated from the wording of the spec, to be compared with `classLoop`.) -/
def lastStreetValue (cls : List Classification) : String :=
  (((cls.filter fun c => c.label = "street").getLast?).map Classification.value).getD ""

/-- The classifications of `solutions[0]` (empty when there are no
solutions). -/
def headClassifications (r : Response) : List Classification :=
  match r.solutions with
  | [] => []
  | s :: _ => s.classifications

/-- Environment of one `streetNameParser` call: whether `http.Get`
returns an error, the HTTP status code of the response, whether
`ioutil.ReadAll` returns an error, the `Response` value left in
`responseObject` by `json.Unmarshal` (the zero value `⟨[]⟩` when the body
is not JSON at all), and whether `Unmarshal` reported success. -/
structure HttpEnv where
  transportError : Bool
  status : Nat
  readError : Bool
  decoded : Response
  decodeOk : Bool
deriving DecidableEq, Repr

/-- Model of the control flow of `streetNameParser` over such an environment.
`Except.error ()` models process termination (`os.Exit(1)` after the
`http.Get` error, `log.Fatal` after the read error).  Observe that the
source never reads `response.StatusCode` and discards the `json.Unmarshal`
error, so neither `status` nor `decodeOk` occurs on the right-hand side. -/
def streetNameParser (env : HttpEnv) : Except Unit String :=
  if env.transportError then .error ()
  else if env.readError then .error ()
  else .ok (streetNameFromResponse env.decoded)

/-! ### Process exit paths and the temporary staging file -/

/-- How a run of `StreetMerge` ends: a normal return, or `os.Exit`
(`log.Fatal` also calls `os.Exit(1)`). -/
inductive GoExit
  | normalReturn
  | osExit (code : Nat)
deriving DecidableEq, Repr

/-- Go semantics of `defer`: deferred calls run when the surrounding call
returns (normally or panicking); `os.Exit` terminates the process at once
and runs no deferred calls. -/
def deferRuns : GoExit → Bool
  | .normalReturn => true
  | .osExit _ => false

/-- The failure switches met along the straight-line body of `StreetMerge`, in
program order: bad CLI arguments (`parsePBF`), a staging-store failure
(`log.Fatal` in `loadStreetsFromDatabase` / `generateStreetsFromWays`),
an `http.Get` or body-read failure inside `streetNameParser`, and a
GeoJSON marshalling failure in `Print`. -/
structure MergeEnv where
  badArgs : Bool
  stagingFails : Bool
  parserTransportFails : Bool
  parserReadFails : Bool
  marshalFails : Bool
deriving DecidableEq, Repr

/-- How `StreetMerge` exits, given which failure (if any) strikes first:
each failure path calls `os.Exit(1)` (directly or via `log.Fatal`);
otherwise the function returns `nil`. -/
def streetMergeExit (e : MergeEnv) : GoExit :=
  if e.badArgs then .osExit 1
  else if e.stagingFails then .osExit 1
  else if e.parserTransportFails then .osExit 1
  else if e.parserReadFails then .osExit 1
  else if e.marshalFails then .osExit 1
  else .normalReturn

/-- Whether the temporary staging-database file is removed before the
process terminates: `StreetMerge` registers `defer os.Remove(filename)`,
so the file is deleted exactly when the deferred call runs. -/
def tempFileDeleted (e : MergeEnv) : Bool :=
  deferRuns (streetMergeExit e)

/-! ### Vectors and the float cosine test -/

/-- Chord vector; models `type Vector struct`. -/
structure VectorQ where
  dX : ℚ
  dY : ℚ
deriving DecidableEq, Repr

/-- Model of `createPathVector` from the source. -/
def createPathVector (pos1 pos2 : PointQ) : VectorQ :=
  ⟨pos2.x - pos1.x, pos2.y - pos1.y⟩

/-- A float value as the cosine computation can produce it: NaN, a signed
infinity, or a finite value. -/
inductive GFloat
  | nan
  | inf (neg : Bool)
  | fin (q : ℚ)
deriving DecidableEq, Repr

/-- Model of `cosBetween2Vectors` from the source, over an abstract square root
`sqrtF` standing for `math.Sqrt` (every theorem below assumes of it only
what IEEE-754 guarantees, e.g. `sqrt 0 = 0`).  IEEE division: `0/0` is
NaN, `x/0` for `x ≠ 0` is a signed infinity, otherwise the quotient. -/
def cosBetween2Vectors (sqrtF : ℚ → ℚ) (a b : VectorQ) : GFloat :=
  let dividend := a.dX * b.dX + a.dY * b.dY
  let divisor := sqrtF (a.dX * a.dX + a.dY * a.dY) * sqrtF (b.dX * b.dX + b.dY * b.dY)
  if divisor = 0 then
    if dividend = 0 then .nan else .inf (decide (dividend < 0))
  else .fin (dividend / divisor)

/-- IEEE `>` against 0: false on NaN. -/
def GFloat.gtZero : GFloat → Bool
  | .nan => false
  | .inf neg => !neg
  | .fin q => decide (0 < q)

/-- IEEE `<=` against 1: false on NaN. -/
def GFloat.leOne : GFloat → Bool
  | .nan => false
  | .inf neg => neg
  | .fin q => decide (q ≤ 1)

/-- Model of `isTwoPathsSameDirection` from the source: `cos > 0 && cos <= 1`. -/
def isTwoPathsSameDirectionF (sqrtF : ℚ → ℚ) (a b : VectorQ) : Bool :=
  let cos := cosBetween2Vectors sqrtF a b
  cos.gtZero && cos.leOne

/-! ### Tolerance constants (lon/lat degrees, squared at each use) -/

/-- Model of `distanceTolerance = 0.003` (all three merge stages). -/
def distanceTolerance : ℚ := 3 / 1000

/-- Model of `distanceRange = 0.00065` in `mergeStreetSameDirection` (S5). -/
def distanceRangeS5 : ℚ := 65 / 100000

/-- Model of `distanceRange = 0.0005` in `mergeLaneSameDirection` (S6). -/
def distanceRangeS6 : ℚ := 5 / 10000

/-- Model of `distanceRange = 0.0003` in `mergeStreet` (S7). -/
def distanceRangeS7 : ℚ := 3 / 10000

/-- Model of `distanceGroup = 0.003` in the proximity partitioner (S3). -/
def distanceGroup : ℚ := 3 / 1000

/-- The squared tolerances, against which the squared distances of the
model are compared (see the file header). -/
def distanceToleranceSq : ℚ := distanceTolerance * distanceTolerance

def distanceRangeS5Sq : ℚ := distanceRangeS5 * distanceRangeS5

def distanceRangeS6Sq : ℚ := distanceRangeS6 * distanceRangeS6

def distanceRangeS7Sq : ℚ := distanceRangeS7 * distanceRangeS7

def distanceGroupSq : ℚ := distanceGroup * distanceGroup

/-! ### S5: `mergeStreetSameDirection`

The loop body over one bucket, modelled as a step function on an explicit
state.  Conventions: `i` is the Go loop variable *after* the `i++` of the
`for` statement, so the Go `i = -1; continue` becomes `i := 0`, `i = 0`
(merge branches) becomes `i := 1` via the shared tail check, and `i--;
continue` leaves `i` unchanged.  `reversePath` reverses in place and every
branch that flips a path flips it back, so the model composes the
reversals.  In each merge, `match` is the joint endpoint captured before
any mutation, and the push loop skips every point equal to it. -/

/-- State of the `mergeStreetSameDirection` loop over one bucket:
`strName` is the bucket key (the local `normName` is re-assigned to
`strName` on every write, so it is constant). -/
structure S5State where
  strs : List Street
  i : Nat
  str1 : Street
  out : List (String × List Street)
  strName : String
deriving Repr

/-- The trailing check of the S5 loop body (source line `if (i ==
(len(strs) - 1) || len(strs) < 1)`): drop the head, restart the scan and
emit `str1`; `gI` is the value of the Go variable `i` at that point. -/
def tailS5 (s : S5State) (gI : ℤ) : S5State :=
  if gI = (s.strs.length : ℤ) - 1 ∨ (s.strs.length : ℤ) < 1 then
    { s with strs := removeStreet s.strs 0, i := 0,
             out := appendEntry s.out s.strName s.str1 }
  else { s with i := (gI + 1).toNat }

/-- One iteration of the `mergeStreetSameDirection` loop body (defined for
`i < strs.length`; a run stops when that fails).  `sameDir` abstracts the
float cosine test. -/
def stepS5 (sameDir : VectorQ → VectorQ → Bool) (s : S5State) : S5State :=
  if s.strs.length = 1 then
    { s with out := appendEntry s.out s.strName (getStreet s.strs 0), i := s.i + 1 }
  else if s.i = 0 then
    { s with str1 := getStreet s.strs 0, i := 1 }
  else
    let sdAllList := shortestDistanceToOtherStreetsSq s.str1 (removeStreet s.strs 0)
    let sdSameList := shortestDistanceToOtherSameDirectionStreetsSq s.str1 (removeStreet s.strs 0)
    let str2 := getStreet s.strs s.i
    let v1 := createPathVector (firstPt s.str1.path) (lastPt s.str1.path)
    let v2 := createPathVector (firstPt str2.path) (lastPt str2.path)
    let sdir := sameDir v1 v2
    if str2.oneway = "yes" then
      let sdw := shortestDistanceWhenSameDirectionSq s.str1.path str2.path
      if intersectsPathB s.str1.path str2.path ∧ sdw > distanceRangeS5Sq then
        if (s.i : ℤ) = (s.strs.length : ℤ) - 1 then
          { s with strs := removeStreet s.strs 0, i := 0,
                   out := appendEntry s.out s.strName s.str1 }
        else { s with i := s.i + 1 }
      else if sdir ∧ distSq (lastPt s.str1.path) (firstPt str2.path) = sdSameList ∧
          sdSameList < distanceToleranceSq then
        let mtch := lastPt s.str1.path
        let str1a := { s.str1 with path := s.str1.path ++ str2.path.filter fun p => ¬p = mtch }
        tailS5 { s with str1 := str1a, strs := removeStreet s.strs (s.i : ℤ) } 0
      else if sdir ∧ distSq (firstPt s.str1.path) (lastPt str2.path) = sdSameList ∧
          sdSameList < distanceToleranceSq then
        let mtch := firstPt s.str1.path
        let str1a := { s.str1 with
          path := (s.str1.path.reverse ++ str2.path.reverse.filter fun p => ¬p = mtch).reverse }
        tailS5 { s with str1 := str1a, strs := removeStreet s.strs (s.i : ℤ) } 0
      else
        if (distSq (lastPt s.str1.path) (firstPt str2.path) = sdSameList ∨
            distSq (firstPt s.str1.path) (lastPt str2.path) = sdSameList) ∧
            sdSameList ≥ distanceToleranceSq then
          tailS5 { s with out := appendEntry s.out s.strName str2,
                          strs := removeStreet s.strs (s.i : ℤ) } ((s.i : ℤ) - 1)
        else tailS5 s (s.i : ℤ)
    else
      let sdPair := getShortestDistanceSq s.str1.path str2.path
      if intersectsPathB s.str1.path str2.path ∧ sdPair > distanceRangeS5Sq then
        if (s.i : ℤ) = (s.strs.length : ℤ) - 1 then
          { s with strs := removeStreet s.strs 0, i := 0,
                   out := appendEntry s.out s.strName s.str1 }
        else { s with i := s.i + 1 }
      else if distSq (lastPt s.str1.path) (firstPt str2.path) = sdAllList ∧
          sdAllList < distanceToleranceSq then
        let mtch := lastPt s.str1.path
        let str1a := { s.str1 with path := s.str1.path ++ str2.path.filter fun p => ¬p = mtch }
        tailS5 { s with str1 := str1a, strs := removeStreet s.strs (s.i : ℤ) } 0
      else if distSq (firstPt s.str1.path) (lastPt str2.path) = sdAllList ∧
          sdAllList < distanceToleranceSq then
        let mtch := firstPt s.str1.path
        let str1a := { s.str1 with
          path := (s.str1.path.reverse ++ str2.path.reverse.filter fun p => ¬p = mtch).reverse }
        tailS5 { s with str1 := str1a, strs := removeStreet s.strs (s.i : ℤ) } 0
      else if distSq (lastPt s.str1.path) (lastPt str2.path) = sdAllList ∧
          sdAllList < distanceToleranceSq then
        let mtch := lastPt s.str1.path
        let str1a := { s.str1 with
          path := s.str1.path ++ str2.path.reverse.filter fun p => ¬p = mtch }
        tailS5 { s with str1 := str1a, strs := removeStreet s.strs (s.i : ℤ) } 0
      else if distSq (firstPt s.str1.path) (firstPt str2.path) = sdAllList ∧
          sdAllList < distanceToleranceSq then
        let mtch := firstPt s.str1.path
        let str1a := { s.str1 with
          path := (s.str1.path.reverse ++ str2.path.filter fun p => ¬p = mtch).reverse }
        tailS5 { s with str1 := str1a, strs := removeStreet s.strs (s.i : ℤ) } 0
      else
        if distSq (lastPt s.str1.path) (firstPt str2.path) = sdAllList ∨
            distSq (firstPt s.str1.path) (lastPt str2.path) = sdAllList ∨
            distSq (lastPt s.str1.path) (lastPt str2.path) = sdAllList ∨
            distSq (firstPt s.str1.path) (firstPt str2.path) = sdAllList then
          tailS5 { s with out := appendEntry s.out s.strName str2,
                          strs := removeStreet s.strs (s.i : ℤ) } ((s.i : ℤ) - 1)
        else tailS5 s (s.i : ℤ)

/-! ### S6 (`mergeLaneSameDirection`) and S7 (`mergeStreet`)

Both loops keep a fixed `baseStreet` extracted before the loop, so they
share a state shape and the trailing check.  The same `i` convention as
for S5 applies. -/

/-- Loop state of the fixed-base merge stages: `key` is the output key of
the bucket (the `--`-stripped name in S6, the `__`-stripped name in
S7). -/
structure MState where
  base : Street
  strs : List Street
  i : Nat
  out : List (String × List Street)
  key : String
deriving Repr

/-- The trailing check shared by the S6/S7 loop bodies: at the end of the
list remove the street at the current Go index `gI`, restart the scan and
emit the base street.  A negative `gI` (set by the merge branches) fires
only on an empty list, where the removal is a no-op. -/
def tailFixedBase (s : MState) (gI : ℤ) : MState :=
  if gI = (s.strs.length : ℤ) - 1 ∨ (s.strs.length : ℤ) < 1 then
    { s with strs := removeStreet s.strs gI, i := 0,
             out := appendEntry s.out s.key s.base }
  else { s with i := (gI + 1).toNat }

/-- The `remove current; i--; maybe emit base; continue` shape of the
refuse-to-merge guards (and of the S7 duplicated-path check). -/
def guardContinueFixedBase (s : MState) : MState :=
  let strs1 := removeStreet s.strs (s.i : ℤ)
  let gI : ℤ := (s.i : ℤ) - 1
  let out1 := if gI = (strs1.length : ℤ) - 1 ∨ (strs1.length : ℤ) < 1 then
    appendEntry s.out s.key s.base else s.out
  { s with strs := strs1, out := out1, i := (gI + 1).toNat }

/-- One iteration of the `mergeLaneSameDirection` loop body (defined for
`i < strs.length`). -/
def stepS6 (sameDir : VectorQ → VectorQ → Bool) (s : MState) : MState :=
  let sdAllList := shortestDistanceToOtherStreetsSq s.base s.strs
  let sdSameList := shortestDistanceToOtherSameDirectionStreetsSq s.base s.strs
  let cur := getStreet s.strs s.i
  let v1 := createPathVector (firstPt s.base.path) (lastPt s.base.path)
  let v2 := createPathVector (firstPt cur.path) (lastPt cur.path)
  let sdir := sameDir v1 v2
  if cur.oneway = "yes" then
    let sdw := shortestDistanceWhenSameDirectionSq s.base.path cur.path
    if (intersectsPathB s.base.path cur.path ∧ sdw > distanceRangeS6Sq) ∨
        sdw > distanceToleranceSq then
      guardContinueFixedBase s
    else if sdir ∧ distSq (lastPt s.base.path) (firstPt cur.path) = sdSameList ∧
        sdSameList < distanceToleranceSq then
      let mtch := lastPt s.base.path
      let base1 := { s.base with path := s.base.path ++ cur.path.filter fun p => ¬p = mtch }
      tailFixedBase { s with base := base1, strs := removeStreet s.strs (s.i : ℤ) } (-1)
    else if sdir ∧ distSq (firstPt s.base.path) (lastPt cur.path) = sdSameList ∧
        sdSameList < distanceToleranceSq then
      let mtch := firstPt s.base.path
      let base1 := { s.base with
        path := (s.base.path.reverse ++ cur.path.reverse.filter fun p => ¬p = mtch).reverse }
      tailFixedBase { s with base := base1, strs := removeStreet s.strs (s.i : ℤ) } (-1)
    else
      if (distSq (lastPt s.base.path) (firstPt cur.path) = sdSameList ∨
          distSq (firstPt s.base.path) (lastPt cur.path) = sdSameList) ∧
          sdSameList ≥ distanceToleranceSq then
        tailFixedBase { s with out := appendEntry s.out s.key cur,
                               strs := removeStreet s.strs (s.i : ℤ) } ((s.i : ℤ) - 1)
      else tailFixedBase s (s.i : ℤ)
  else
    let sdPair := getShortestDistanceSq s.base.path cur.path
    if intersectsPathB s.base.path cur.path ∧ sdPair > distanceRangeS6Sq then
      guardContinueFixedBase s
    else if distSq (lastPt s.base.path) (firstPt cur.path) = sdAllList ∧
        sdAllList < distanceToleranceSq then
      let mtch := lastPt s.base.path
      let base1 := { s.base with path := s.base.path ++ cur.path.filter fun p => ¬p = mtch }
      tailFixedBase { s with base := base1, strs := removeStreet s.strs (s.i : ℤ) } (-1)
    else if distSq (firstPt s.base.path) (lastPt cur.path) = sdAllList ∧
        sdAllList < distanceToleranceSq then
      let mtch := firstPt s.base.path
      let base1 := { s.base with
        path := (s.base.path.reverse ++ cur.path.reverse.filter fun p => ¬p = mtch).reverse }
      tailFixedBase { s with base := base1, strs := removeStreet s.strs (s.i : ℤ) } (-1)
    else if distSq (lastPt s.base.path) (lastPt cur.path) = sdAllList ∧
        sdAllList < distanceToleranceSq then
      let mtch := lastPt s.base.path
      let base1 := { s.base with
        path := s.base.path ++ cur.path.reverse.filter fun p => ¬p = mtch }
      tailFixedBase { s with base := base1, strs := removeStreet s.strs (s.i : ℤ) } (-1)
    else if distSq (firstPt s.base.path) (firstPt cur.path) = sdAllList ∧
        sdAllList < distanceToleranceSq then
      let mtch := firstPt s.base.path
      let base1 := { s.base with
        path := (s.base.path.reverse ++ cur.path.filter fun p => ¬p = mtch).reverse }
      tailFixedBase { s with base := base1, strs := removeStreet s.strs (s.i : ℤ) } (-1)
    else
      if distSq (lastPt s.base.path) (firstPt cur.path) = sdAllList ∨
          distSq (firstPt s.base.path) (lastPt cur.path) = sdAllList ∨
          distSq (lastPt s.base.path) (lastPt cur.path) = sdAllList ∨
          distSq (firstPt s.base.path) (firstPt cur.path) = sdAllList then
        tailFixedBase { s with out := appendEntry s.out s.key cur,
                               strs := removeStreet s.strs (s.i : ℤ) } ((s.i : ℤ) - 1)
      else tailFixedBase s (s.i : ℤ)

/-- One iteration of the `mergeStreet` (S7) loop body (defined for
`i < strs.length`).  Differences from S6: the duplicated-path skip
(pointer comparison, modelled by `pid`), the touching-endpoints special
guard, a single intersection guard fed by the four-pair distance, and an
emit branch that does *not* remove the candidate. -/
def stepS7 (sameDir : VectorQ → VectorQ → Bool) (s : MState) : MState :=
  let sdAllList := shortestDistanceToOtherStreetsSq s.base s.strs
  let sdSameList := shortestDistanceToOtherSameDirectionStreetsSq s.base s.strs
  let cur := getStreet s.strs s.i
  if s.base.pid = cur.pid then
    guardContinueFixedBase s
  else
    let v1 := createPathVector (firstPt s.base.path) (lastPt s.base.path)
    let v2 := createPathVector (firstPt cur.path) (lastPt cur.path)
    let sdir := sameDir v1 v2
    if (sdSameList = 0 ∧ sdSameList = sdAllList) ∧ ¬sdir = true ∧
        (s.i : ℤ) < (s.strs.length : ℤ) - 1 then
      { s with i := s.i + 1 }
    else
      let sdPair := getShortestDistanceSq s.base.path cur.path
      if intersectsPathB s.base.path cur.path ∧ sdPair > distanceRangeS7Sq then
        guardContinueFixedBase s
      else if distSq (lastPt s.base.path) (firstPt cur.path) = sdAllList ∧
          sdAllList < distanceToleranceSq then
        let mtch := lastPt s.base.path
        let base1 := { s.base with path := s.base.path ++ cur.path.filter fun p => ¬p = mtch }
        tailFixedBase { s with base := base1, strs := removeStreet s.strs (s.i : ℤ) } (-1)
      else if distSq (firstPt s.base.path) (lastPt cur.path) = sdAllList ∧
          sdAllList < distanceToleranceSq then
        let mtch := firstPt s.base.path
        let base1 := { s.base with
          path := (s.base.path.reverse ++ cur.path.reverse.filter fun p => ¬p = mtch).reverse }
        tailFixedBase { s with base := base1, strs := removeStreet s.strs (s.i : ℤ) } (-1)
      else if distSq (lastPt s.base.path) (lastPt cur.path) = sdAllList ∧
          sdAllList < distanceToleranceSq then
        let mtch := lastPt s.base.path
        let base1 := { s.base with
          path := s.base.path ++ cur.path.reverse.filter fun p => ¬p = mtch }
        tailFixedBase { s with base := base1, strs := removeStreet s.strs (s.i : ℤ) } (-1)
      else if distSq (firstPt s.base.path) (firstPt cur.path) = sdAllList ∧
          sdAllList < distanceToleranceSq then
        let mtch := firstPt s.base.path
        let base1 := { s.base with
          path := (s.base.path.reverse ++ cur.path.filter fun p => ¬p = mtch).reverse }
        tailFixedBase { s with base := base1, strs := removeStreet s.strs (s.i : ℤ) } (-1)
      else
        if distSq (lastPt s.base.path) (firstPt cur.path) = sdAllList ∨
            distSq (firstPt s.base.path) (lastPt cur.path) = sdAllList ∨
            distSq (lastPt s.base.path) (lastPt cur.path) = sdAllList ∨
            distSq (firstPt s.base.path) (firstPt cur.path) = sdAllList then
          tailFixedBase { s with out := appendEntry s.out s.key cur } (s.i : ℤ)
        else tailFixedBase s (s.i : ℤ)

/-- The S7 per-bucket loop.  The fuel only caps the iteration count so the
model is total; `mergeStreetBucket` passes a fuel larger than any possible
run (each iteration either removes a street or advances `i`, so a bucket
of `n` streets iterates fewer than `(n+2)^2` times). -/
def runS7 (sameDir : VectorQ → VectorQ → Bool) : Nat → MState → MState
  | 0, s => s
  | n + 1, s => if s.i < s.strs.length then runS7 sameDir n (stepS7 sameDir s) else s

/-- One bucket of `mergeStreet` (S7): sort by descending length, drop
roundabouts, strip the `__` suffix from the key; emit singletons directly,
otherwise run the loop with the longest street as the fixed base. -/
def mergeStreetBucket (plen : List PointQ → ℚ) (sameDir : VectorQ → VectorQ → Bool)
    (out : List (String × List Street)) (strName : String) (strs0 : List Street) :
    List (String × List Street) :=
  let strs1 := sortStreetsDescLength plen strs0
  let strs2 := removeRoundabout strs1
  let normName := baseKey strName
  if strs2.length < 1 then out
  else if strs2.length = 1 then appendEntry out normName (getStreet strs2 0)
  else
    let idx := getLongestStreetIndex plen strs2
    let base := getStreet strs2 idx
    let strs3 := removeStreet strs2 (idx : ℤ)
    (runS7 sameDir ((strs3.length + 2) * (strs3.length + 2))
      ⟨base, strs3, 0, out, normName⟩).out

/-- Model of `mergeStreet` (S7) over the whole name map.  Go iterates the map in an
unspecified order; the model takes the entry list in an explicit iteration
order, so theorems can quantify over (or exhibit) orders. -/
def mergeStreet (plen : List PointQ → ℚ) (sameDir : VectorQ → VectorQ → Bool)
    (order : List (String × List Street)) : List (String × List Street) :=
  order.foldl (fun m e => mergeStreetBucket plen sameDir m e.1 e.2) []

/-! ### Emission (the tail of `joinStreets`)

`keys := make([]string, len(mergedStreet))` pre-fills the slice with
`len(mergedStreet)` empty strings; the loop then appends the actual keys,
the slice is sorted (`sort.Strings`), and each key is looked up, skipping
`nil` buckets (in particular every `""` produced by the `make`). -/

/-- The sorted key sequence the output loop walks (`sort.Strings` sorts
by byte order, `goStrLe`). -/
def emitKeySeq (m : List (String × List Street)) : List String :=
  (List.replicate m.length "" ++ m.map Prod.fst).insertionSort
    fun a b => goStrLe a b = true

/-- The emitted street sequence: buckets concatenated in sorted-key order,
missing keys skipped. -/
def joinStreetsOutput (m : List (String × List Street)) : List Street :=
  (emitKeySeq m).foldl
    (fun acc k => match m.lookup k with | some strs => acc ++ strs | none => acc) []

/-! ### S3: the proximity partitioner loop of `joinStreets` -/

/-- State of the proximity grouping loop over one name bucket.  The Go
`baseStreet` starts as `nil` and is assigned on the first iteration
(`i == 0`) before any use; the model starts it at `defaultStreet`. -/
structure ProxState where
  strs : List Street
  i : Nat
  baseStreet : Street
  normName : String
  group : Nat
  streetGroup : List Street
  gmap : List (String × List Street)
deriving Repr

/-- Initial state for one bucket (`normName` starts as the lowercased name
of the first street; `group` starts at 1). -/
def initProxState (strs : List Street) : ProxState :=
  ⟨strs, 0, defaultStreet, toLowerGo (getStreet strs 0).name, 1, [], []⟩

/-- One iteration of the proximity loop body (defined for
`i < strs.length`), with the same post-increment convention as the merge
steps: at `i = 0` seed a fresh group from the head and give it the next
`__G` key; otherwise admit the current street into the group when its
shortest distance to the group is below `distanceGroup` (restarting the
scan), and at the end of a fruitless pass drop the head. -/
def proxStep (s : ProxState) : ProxState :=
  if s.i = 0 then
    let base := getStreet s.strs 0
    let nm := toLowerGo base.name ++ "__" ++ toString s.group
    { s with baseStreet := base, streetGroup := [base], normName := nm,
             group := s.group + 1, gmap := setEntry s.gmap nm [base], i := 1 }
  else
    let cur := getStreet s.strs s.i
    if shortestDistanceToOtherStreetsSq cur s.streetGroup < distanceGroupSq then
      { s with streetGroup := s.streetGroup ++ [cur],
               gmap := appendEntry s.gmap s.normName cur,
               strs := removeStreet s.strs (s.i : ℤ), i := 1 }
    else if (s.i : ℤ) = (s.strs.length : ℤ) - 1 then
      { s with strs := removeStreet s.strs 0, i := 0 }
    else { s with i := s.i + 1 }

/-- Runs `n` iterations of the proximity loop, stopping at the loop condition
`i < len(strs)`. -/
def proxIter : Nat → ProxState → ProxState
  | 0, s => s
  | n + 1, s => if s.i < s.strs.length then proxIter n (proxStep s) else s

/-- The loop has exited. -/
def proxDone (s : ProxState) : Bool :=
  decide (s.strs.length ≤ s.i)

/-- Termination measure: the lexicographic pair (list length, distance of
`i` from the end), packed into one natural number. -/
def proxMeasure (s : ProxState) : Nat :=
  s.strs.length * (s.strs.length + 2) + (s.strs.length - s.i)

/-! ## Supporting lemmas -/

theorem filter_enumFrom_ne (l : List Street) (n : Nat) (k : ℤ) (h : k < (n : ℤ)) :
    ((l.enumFrom n).filter fun p => ¬((p.1 : ℤ) = k)).map Prod.snd = l := by
  induction l generalizing n with
  | nil => rfl
  | cons a l ih =>
    simp only [List.enumFrom, List.filter_cons]
    rw [if_pos]
    · rw [List.map_cons, ih (n + 1) (by push_cast; omega)]
    · simp only [decide_eq_true_eq]
      omega

theorem removeStreet_enumFrom (l : List Street) (n i : Nat) :
    ((l.enumFrom n).filter fun p => ¬((p.1 : ℤ) = ((n + i : Nat) : ℤ))).map Prod.snd =
      l.eraseIdx i := by
  induction l generalizing n i with
  | nil => rfl
  | cons a l ih =>
    cases i with
    | zero =>
      simp only [List.enumFrom, List.filter_cons, Nat.add_zero]
      rw [if_neg (by simp)]
      rw [filter_enumFrom_ne l (n + 1) n (by push_cast; omega)]
      rfl
    | succ j =>
      simp only [List.enumFrom, List.filter_cons]
      rw [if_pos (by simp only [decide_eq_true_eq]; push_cast; omega)]
      rw [List.map_cons]
      rw [show (n + (j + 1) : Nat) = ((n + 1) + j : Nat) by omega, ih (n + 1) j]
      rfl

/-- Unfolded, `removeStreet` at a nonnegative index is `List.eraseIdx`. -/
theorem removeStreet_eq_eraseIdx (l : List Street) (i : Nat) :
    removeStreet l (i : ℤ) = l.eraseIdx i := by
  have := removeStreet_enumFrom l 0 i
  simpa [removeStreet, List.enum] using this

theorem length_removeStreet (l : List Street) (i : Nat) (h : i < l.length) :
    (removeStreet l (i : ℤ)).length = l.length - 1 := by
  rw [removeStreet_eq_eraseIdx, List.length_eraseIdx]
  simp [h]

theorem removeStreet_zero (l : List Street) : removeStreet l 0 = l.tail := by
  have := removeStreet_eq_eraseIdx l 0
  simpa [List.eraseIdx] using this

/-- The four-pair endpoint minimum is bounded by the two-pair
same-direction minimum (the two pairs are among the four). -/
theorem getShortestDistanceSq_le_sameDirection (p q : List PointQ) :
    getShortestDistanceSq p q ≤ shortestDistanceWhenSameDirectionSq p q := by
  unfold getShortestDistanceSq shortestDistanceWhenSameDirectionSq
  dsimp only
  split_ifs <;> linarith

/-- S5 refuse-to-merge guard: an examined pair that intersects with
four-pair endpoint minimum above the S5 guard distance is not merged by
that iteration (`str1` keeps its path; at most the scan head is dropped). -/
theorem stepS5_guard (sameDir : VectorQ → VectorQ → Bool) (s : S5State)
    (hlen : s.strs.length ≠ 1) (hi : s.i ≠ 0)
    (hx : intersectsPathB s.str1.path (getStreet s.strs s.i).path = true)
    (hd : getShortestDistanceSq s.str1.path (getStreet s.strs s.i).path > distanceRangeS5Sq) :
    (stepS5 sameDir s).str1 = s.str1 ∧
      ((stepS5 sameDir s).strs = s.strs ∨ (stepS5 sameDir s).strs = removeStreet s.strs 0) := by
  have hsdw : shortestDistanceWhenSameDirectionSq s.str1.path (getStreet s.strs s.i).path >
      distanceRangeS5Sq :=
    lt_of_lt_of_le hd (getShortestDistanceSq_le_sameDirection _ _)
  unfold stepS5
  rw [if_neg hlen, if_neg hi]
  dsimp only
  by_cases how : (getStreet s.strs s.i).oneway = "yes"
  · rw [if_pos how, if_pos ⟨hx, hsdw⟩]
    split
    · exact ⟨rfl, Or.inr rfl⟩
    · exact ⟨rfl, Or.inl rfl⟩
  · rw [if_neg how, if_pos ⟨hx, hd⟩]
    split
    · exact ⟨rfl, Or.inr rfl⟩
    · exact ⟨rfl, Or.inl rfl⟩

/-- S6 refuse-to-merge guard: an examined pair that intersects with
four-pair endpoint minimum above the S6 guard distance is dropped without
being merged (the base keeps its path). -/
theorem stepS6_guard (sameDir : VectorQ → VectorQ → Bool) (s : MState)
    (hx : intersectsPathB s.base.path (getStreet s.strs s.i).path = true)
    (hd : getShortestDistanceSq s.base.path (getStreet s.strs s.i).path > distanceRangeS6Sq) :
    (stepS6 sameDir s).base = s.base ∧
      (stepS6 sameDir s).strs = removeStreet s.strs (s.i : ℤ) := by
  have hsdw : shortestDistanceWhenSameDirectionSq s.base.path (getStreet s.strs s.i).path >
      distanceRangeS6Sq :=
    lt_of_lt_of_le hd (getShortestDistanceSq_le_sameDirection _ _)
  unfold stepS6
  dsimp only
  by_cases how : (getStreet s.strs s.i).oneway = "yes"
  · rw [if_pos how, if_pos (Or.inl ⟨hx, hsdw⟩)]
    exact ⟨rfl, rfl⟩
  · rw [if_neg how, if_pos ⟨hx, hd⟩]
    exact ⟨rfl, rfl⟩

/-- S7 refuse-to-merge guard: an examined pair that intersects with
four-pair endpoint minimum above the S7 guard distance is never merged by
that iteration, whichever of the early branches applies. -/
theorem stepS7_guard (sameDir : VectorQ → VectorQ → Bool) (s : MState)
    (hx : intersectsPathB s.base.path (getStreet s.strs s.i).path = true)
    (hd : getShortestDistanceSq s.base.path (getStreet s.strs s.i).path > distanceRangeS7Sq) :
    (stepS7 sameDir s).base = s.base ∧
      ((stepS7 sameDir s).strs = s.strs ∨
        (stepS7 sameDir s).strs = removeStreet s.strs (s.i : ℤ)) := by
  unfold stepS7
  dsimp only
  by_cases hpid : s.base.pid = (getStreet s.strs s.i).pid
  · rw [if_pos hpid]
    exact ⟨rfl, Or.inr rfl⟩
  · rw [if_neg hpid]
    split
    · exact ⟨rfl, Or.inl rfl⟩
    · rw [if_pos ⟨hx, hd⟩]
      exact ⟨rfl, Or.inr rfl⟩

/-- Every continuing iteration of the proximity loop strictly decreases
the measure: seeding or scanning advances `i` at constant length, while an
admission or a head drop strictly shrinks the list. -/
theorem proxStep_measure_lt (s : ProxState) (h : s.i < s.strs.length) :
    proxMeasure (proxStep s) < proxMeasure s := by
  unfold proxStep
  by_cases h0 : s.i = 0
  · rw [if_pos h0]
    unfold proxMeasure
    dsimp only
    exact Nat.add_lt_add_left (by omega) _
  · rw [if_neg h0]
    dsimp only
    by_cases hadm : shortestDistanceToOtherStreetsSq (getStreet s.strs s.i) s.streetGroup <
        distanceGroupSq
    · rw [if_pos hadm]
      unfold proxMeasure
      dsimp only
      rw [length_removeStreet _ _ h]
      obtain ⟨m, hm⟩ : ∃ m, s.strs.length = m + 2 := ⟨s.strs.length - 2, by omega⟩
      rw [hm]
      have key : (m + 2 - 1) * (m + 2 - 1 + 2) + (m + 2 - 1 - 1) < (m + 2) * (m + 2 + 2) := by
        have h1 : m + 2 - 1 = m + 1 := by omega
        rw [h1]
        have h2 : m + 1 - 1 = m := by omega
        rw [h2]
        nlinarith
      exact key.trans_le (Nat.le_add_right _ _)
    · rw [if_neg hadm]
      by_cases hlast : (s.i : ℤ) = (s.strs.length : ℤ) - 1
      · rw [if_pos hlast]
        unfold proxMeasure
        dsimp only
        rw [removeStreet_zero, List.length_tail]
        obtain ⟨m, hm⟩ : ∃ m, s.strs.length = m + 1 := ⟨s.strs.length - 1, by omega⟩
        rw [hm]
        have key : (m + 1 - 1) * (m + 1 - 1 + 2) + (m + 1 - 1 - 0) < (m + 1) * (m + 1 + 2) := by
          have h1 : m + 1 - 1 = m := by omega
          rw [h1, Nat.sub_zero]
          nlinarith
        exact key.trans_le (Nat.le_add_right _ _)
      · rw [if_neg hlast]
        unfold proxMeasure
        dsimp only
        exact Nat.add_lt_add_left (by omega) _

theorem proxIter_done_of_measure :
    ∀ (k : Nat) (s : ProxState), proxMeasure s ≤ k →
      ∃ n, proxDone (proxIter n s) = true := by
  intro k
  induction k with
  | zero =>
    intro s hs
    by_cases h : s.i < s.strs.length
    · exact absurd (proxStep_measure_lt s h) (by omega)
    · exact ⟨0, by simp only [proxIter, proxDone, decide_eq_true_eq]; omega⟩
  | succ k ih =>
    intro s hs
    by_cases h : s.i < s.strs.length
    · obtain ⟨n, hn⟩ := ih (proxStep s) (by have := proxStep_measure_lt s h; omega)
      exact ⟨n + 1, by simpa [proxIter, if_pos h] using hn⟩
    · exact ⟨0, by simp only [proxIter, proxDone, decide_eq_true_eq]; omega⟩

theorem charListLe_total (a b : List Char) :
    charListLe a b = true ∨ charListLe b a = true := by
  induction a generalizing b with
  | nil => left; rfl
  | cons x xs ih =>
    cases b with
    | nil => right; rfl
    | cons y ys =>
      unfold charListLe
      by_cases hxy : x < y
      · left
        rw [if_pos hxy]
      · by_cases hyx : y < x
        · right
          rw [if_pos hyx]
        · rw [if_neg hxy, if_neg hyx, if_neg hyx, if_neg hxy]
          exact ih ys

theorem charListLe_trans (a b c : List Char) (hab : charListLe a b = true)
    (hbc : charListLe b c = true) : charListLe a c = true := by
  induction a generalizing b c with
  | nil => rfl
  | cons x xs ih =>
    cases b with
    | nil => simp [charListLe] at hab
    | cons y ys =>
      cases c with
      | nil => simp [charListLe] at hbc
      | cons z zs =>
        unfold charListLe at hab hbc ⊢
        by_cases hxy : x < y
        · by_cases hyz : y < z
          · rw [if_pos (hxy.trans hyz)]
          · rw [if_neg hyz] at hbc
            by_cases hzy : z < y
            · rw [if_pos hzy] at hbc
              exact absurd hbc (by simp)
            · have hyz2 : y = z := le_antisymm (not_lt.mp hzy) (not_lt.mp hyz)
              subst hyz2
              rw [if_pos hxy]
        · rw [if_neg hxy] at hab
          by_cases hyx : y < x
          · rw [if_pos hyx] at hab
            exact absurd hab (by simp)
          · rw [if_neg hyx] at hab
            have hxe : x = y := le_antisymm (not_lt.mp hyx) (not_lt.mp hxy)
            subst hxe
            by_cases hxz : x < z
            · rw [if_pos hxz]
            · rw [if_neg hxz] at hbc ⊢
              by_cases hzx : z < x
              · rw [if_pos hzx] at hbc
                exact absurd hbc (by simp)
              · rw [if_neg hzx] at hbc ⊢
                exact ih ys zs hab hbc

instance : IsTotal String fun a b => goStrLe a b = true :=
  ⟨fun a b => charListLe_total a.data b.data⟩

instance : IsTrans String fun a b => goStrLe a b = true :=
  ⟨fun a b c => charListLe_trans a.data b.data c.data⟩

/-! ## Concrete data used by counterexamples and witnesses -/

/-- A trivial path-length order (the ordering claims hold for every
`plen`; concrete statements may pick this one). -/
def plenZero : List PointQ → ℚ := fun _ => 0

/-- A trivial instantiation of the abstract direction test. -/
def sdFalse : VectorQ → VectorQ → Bool := fun _ _ => false

/-- A constant mock of the external name parser. -/
def constParser : String → String := fun _ => "x"

def fragA : Street := ⟨1, [⟨0, 0⟩, ⟨1, 0⟩], "a", ""⟩

def fragB : Street := ⟨2, [⟨5, 5⟩, ⟨6, 5⟩], "a", ""⟩

/-- Two iteration orders of the same name map, whose suffixed keys both
strip to the base key `"a"` in `mergeStreet`. -/
def orderOne : List (String × List Street) := [("a__1", [fragA]), ("a__2", [fragB])]

def orderTwo : List (String × List Street) := [("a__2", [fragB]), ("a__1", [fragA])]

/-- A path curving above the x-axis: its chord runs along the axis. -/
def curvedPath : List PointQ := [⟨0, 0⟩, ⟨5, 5⟩, ⟨10, 0⟩]

/-- A straight path at height 2: it crosses the curve but not its chord. -/
def straightPath : List PointQ := [⟨0, 2⟩, ⟨10, 2⟩]

/-- Two crossing one-way fragments whose endpoints are far apart. -/
def crossA : Street := ⟨1, [⟨0, 0⟩, ⟨2, 2⟩], "x", "yes"⟩

def crossB : Street := ⟨2, [⟨0, 2⟩, ⟨2, 0⟩], "x", "yes"⟩

def s5guardState : S5State := ⟨[crossA, crossB], 1, crossA, [], "x"⟩

def s6guardState : MState := ⟨crossA, [crossB], 0, [], "x"⟩

def s7guardState : MState := ⟨crossA, [crossB], 0, [], "x"⟩

/-- An environment where the parser endpoint answers 500 with a body that
is not valid JSON (`Unmarshal` fails, leaving the zero `Response`). -/
def malformedEnv : HttpEnv := ⟨false, 500, false, ⟨[]⟩, false⟩

/-- An environment where the parser endpoint answers 404 with a body that
happens to decode to a street classification. -/
def failedStreetEnv : HttpEnv := ⟨false, 404, false, ⟨[⟨1, [⟨"Tran Phu", "street"⟩]⟩]⟩, true⟩

/-- A run in which `http.Get` inside `streetNameParser` fails. -/
def parserFailEnv : MergeEnv := ⟨false, false, true, false, false⟩

/-- The all-zero square root stand-in (used only to witness hypotheses
that IEEE `math.Sqrt` satisfies, such as `sqrt 0 = 0`). -/
def sqrtFZero : ℚ → ℚ := fun _ => 0

/-! ## Claims -/

set_option maxHeartbeats 4000000 in
set_option maxRecDepth 100000 in
/-- C1 (counterexample).  The two entry orders are permutations of one
another (the same name map), the emitted key sequences agree, yet the
emitted fragment sequences differ: with `a__1` and `a__2` both stripping
to `a` in `mergeStreet`, the fragment order inside the output key `a`
follows the map iteration order, so two runs of `joinStreets` need not
produce identical output. -/
theorem joinStreets_fragment_order_map_dependent :
    orderTwo.Perm orderOne ∧
      emitKeySeq (mergeStreet plenZero sdFalse orderOne) =
        emitKeySeq (mergeStreet plenZero sdFalse orderTwo) ∧
      joinStreetsOutput (mergeStreet plenZero sdFalse orderOne) ≠
        joinStreetsOutput (mergeStreet plenZero sdFalse orderTwo) := by
  refine ⟨?_, ?_, ?_⟩ <;> decide

/-- C1 (amended).  What the final phase of `joinStreets` does guarantee:
the emitted key sequence is always in ascending lexical order (the
fragment order within an output key, by contrast, can depend on the Go map
iteration order when several suffixed keys strip to the same base key, as
the counterexample shows). -/
theorem joinStreets_emitted_keys_sorted (m : List (String × List Street)) :
    List.Sorted (fun a b => goStrLe a b = true) (emitKeySeq m) :=
  List.sorted_insertionSort _ _

/-- C2 (counterexample).  The intersection predicate the merge stages
call is `Path.IntersectsPath` on the full polylines: on this pair it
reports an intersection although the two first-to-last chords (what
`isIntersection` tests) do not intersect, so the guard test is not the
chord test. -/
theorem mergeGuard_not_chord_only :
    intersectsPathB curvedPath straightPath = true ∧
      isIntersection curvedPath straightPath = false := by
  decide

/-- C2 (amended).  The guard used by every merge stage tests the full
polylines: it fires exactly when some segment of one fragment intersects
some segment of the other (the chord-only `isIntersection` is defined in
the source but not called by the merge stages). -/
theorem intersectsPath_iff_segment_pair (p q : List PointQ) :
    intersectsPathB p q = true ↔
      ∃ s ∈ pathSegments p, ∃ t ∈ pathSegments q, segIntersect s.1 s.2 t.1 t.2 = true := by
  unfold intersectsPathB
  simp [List.any_eq_true]

/-- C4 (counterexample).  A non-2xx status or a malformed body is not
fatal: with a 500 response whose body fails to decode the call returns
`""` normally, and with a 404 response whose body decodes to a street
classification it returns a value derived from that failed response. -/
theorem streetNameParser_swallows_failures :
    streetNameParser malformedEnv = .ok "" ∧
      streetNameParser failedStreetEnv = .ok "Tran Phu" ∧
      malformedEnv.status = 500 ∧ failedStreetEnv.status = 404 :=
  ⟨rfl, rfl, rfl, rfl⟩

/-- C4 (amended).  `streetNameParser` exits the process exactly on an
`http.Get` transport error or a body-read error; the HTTP status code and
the `json.Unmarshal` error are never consulted (the result is unchanged
under any `status` and any `decodeOk`), and a body that fails to decode
leaves the zero `Response`, producing `.ok ""`. -/
theorem streetNameParser_fatal_iff_transport_or_read (env : HttpEnv) :
    (streetNameParser env = .error () ↔
      (env.transportError = true ∨ env.readError = true)) ∧
    (∀ (st : Nat) (ok : Bool),
      streetNameParser { env with status := st, decodeOk := ok } = streetNameParser env) ∧
    streetNameParser ⟨false, env.status, false, ⟨[]⟩, false⟩ = .ok "" := by
  refine ⟨?_, fun st ok => rfl, rfl⟩
  unfold streetNameParser
  cases ht : env.transportError <;> cases hr : env.readError <;> simp

/-- C5 (counterexample).  On the exit path where `http.Get` inside
`streetNameParser` fails, the process leaves through `os.Exit(1)`, which
does not run deferred calls, so the temporary staging-database file is
not deleted. -/
theorem tempFile_not_deleted_on_parser_failure :
    tempFileDeleted parserFailEnv = false ∧ streetMergeExit parserFailEnv = .osExit 1 :=
  ⟨rfl, rfl⟩

/-- C5 (amended).  The deferred `os.Remove` runs exactly on normal
completion: every fatal path exits through `os.Exit` (directly or via
`log.Fatal`), bypassing the deferred removal. -/
theorem tempFileDeleted_iff_normal_return (e : MergeEnv) :
    tempFileDeleted e = true ↔ streetMergeExit e = .normalReturn := by
  unfold tempFileDeleted
  cases h : streetMergeExit e <;> simp [deferRuns]

/-- C10.  A degenerate chord (`path.first = path.last`) yields the zero
vector; for any `sqrtF` with the IEEE property `sqrt 0 = 0` the divisor of
`cosBetween2Vectors` is then `0 * _ = 0` (or `_ * 0`) while the dividend
is exactly 0, so the cosine is NaN; `NaN > 0` is false, hence
`isTwoPathsSameDirection` rejects the zero-chord fragment against every
vector, in either argument position. -/
theorem degenerate_chord_never_same_direction (sqrtF : ℚ → ℚ) (h0 : sqrtF 0 = 0)
    (p : PointQ) (b : VectorQ) :
    isTwoPathsSameDirectionF sqrtF (createPathVector p p) b = false ∧
      isTwoPathsSameDirectionF sqrtF b (createPathVector p p) = false := by
  have hz : createPathVector p p = ⟨0, 0⟩ := by
    unfold createPathVector
    simp
  rw [hz]
  constructor <;>
    simp [isTwoPathsSameDirectionF, cosBetween2Vectors, h0, GFloat.gtZero]

/-- C10 (witness): the concrete zero chord at the origin against the unit
vector, with a concrete square root satisfying `sqrt 0 = 0`. -/
theorem degenerate_chord_never_same_direction_witness :
    sqrtFZero 0 = 0 ∧
      (isTwoPathsSameDirectionF sqrtFZero (createPathVector ⟨0, 0⟩ ⟨0, 0⟩) ⟨1, 0⟩ = false ∧
        isTwoPathsSameDirectionF sqrtFZero ⟨1, 0⟩ (createPathVector ⟨0, 0⟩ ⟨0, 0⟩) = false) :=
  ⟨rfl, degenerate_chord_never_same_direction sqrtFZero rfl ⟨0, 0⟩ ⟨1, 0⟩⟩

/-- A street caught by the S2 noise filter. -/
def noiseStreet : Street := ⟨7, [⟨0, 0⟩, ⟨1, 0⟩], "Kiệt 5", ""⟩

/-- C3.  In every merge stage, whenever the loop body examines a pair
whose current paths intersect (`IntersectsPath`) while the pairwise
four-pair endpoint minimum exceeds the guard distance ρ of that stage
(0.00065 in S5, 0.0005 in S6, 0.0003 in S7; squared in the exact model),
the refuse-to-merge guard wins: the iteration performs no merge — the
base fragment keeps its path (and for S5 the candidate only ever leaves
the scan list through the non-merging head drop).  For the one-way
branches, whose guard compares the two-pair same-direction minimum, the
hypothesis transfers because that minimum dominates the four-pair one. -/
theorem crossing_far_pairs_never_merged :
    (∀ (sameDir : VectorQ → VectorQ → Bool) (s : S5State),
      s.strs.length ≠ 1 → s.i ≠ 0 →
      intersectsPathB s.str1.path (getStreet s.strs s.i).path = true →
      getShortestDistanceSq s.str1.path (getStreet s.strs s.i).path > distanceRangeS5Sq →
      (stepS5 sameDir s).str1 = s.str1 ∧
        ((stepS5 sameDir s).strs = s.strs ∨ (stepS5 sameDir s).strs = removeStreet s.strs 0)) ∧
    (∀ (sameDir : VectorQ → VectorQ → Bool) (s : MState),
      intersectsPathB s.base.path (getStreet s.strs s.i).path = true →
      getShortestDistanceSq s.base.path (getStreet s.strs s.i).path > distanceRangeS6Sq →
      (stepS6 sameDir s).base = s.base ∧
        (stepS6 sameDir s).strs = removeStreet s.strs (s.i : ℤ)) ∧
    (∀ (sameDir : VectorQ → VectorQ → Bool) (s : MState),
      intersectsPathB s.base.path (getStreet s.strs s.i).path = true →
      getShortestDistanceSq s.base.path (getStreet s.strs s.i).path > distanceRangeS7Sq →
      (stepS7 sameDir s).base = s.base ∧
        ((stepS7 sameDir s).strs = s.strs ∨
          (stepS7 sameDir s).strs = removeStreet s.strs (s.i : ℤ))) :=
  ⟨stepS5_guard, stepS6_guard, stepS7_guard⟩

set_option maxHeartbeats 4000000 in
set_option maxRecDepth 100000 in
/-- C3 (witness): two concretely crossing one-way fragments whose closest
endpoints are 2 degrees apart, examined by each of the three stages. -/
theorem crossing_far_pairs_never_merged_witness :
    (intersectsPathB crossA.path (getStreet s5guardState.strs 1).path = true ∧
      getShortestDistanceSq crossA.path crossB.path > distanceRangeS5Sq ∧
      getShortestDistanceSq crossA.path crossB.path > distanceRangeS6Sq ∧
      getShortestDistanceSq crossA.path crossB.path > distanceRangeS7Sq) ∧
    ((stepS5 sdFalse s5guardState).str1 = s5guardState.str1 ∧
      ((stepS5 sdFalse s5guardState).strs = s5guardState.strs ∨
        (stepS5 sdFalse s5guardState).strs = removeStreet s5guardState.strs 0)) ∧
    ((stepS6 sdFalse s6guardState).base = s6guardState.base ∧
      (stepS6 sdFalse s6guardState).strs = removeStreet s6guardState.strs 0) ∧
    ((stepS7 sdFalse s7guardState).base = s7guardState.base ∧
      ((stepS7 sdFalse s7guardState).strs = s7guardState.strs ∨
        (stepS7 sdFalse s7guardState).strs = removeStreet s7guardState.strs 0)) :=
  ⟨⟨by decide, by decide, by decide, by decide⟩,
    crossing_far_pairs_never_merged.1 sdFalse s5guardState (by decide) (by decide)
      (by decide) (by decide),
    crossing_far_pairs_never_merged.2.1 sdFalse s6guardState (by decide) (by decide),
    crossing_far_pairs_never_merged.2.2 sdFalse s7guardState (by decide) (by decide)⟩

set_option maxHeartbeats 1000000 in
/-- C6.  A street whose lowercased, accent-folded name is caught by the
noise filter (the four folded markers, or the special-cased exact name)
is dropped by the normalisation loop: the name map built over any input
list is the same as if the street were absent, so it contributes to no
cluster bucket and (all later stages reading only this map) to no output
record. -/
theorem noise_filtered_streets_reach_no_bucket
    (parser : String → String) (pre post : List Street) (st : Street)
    (hfilter : noiseFiltered (removeAccent (toLowerGo st.name)) = true) :
    buildNameMap parser (pre ++ st :: post) = buildNameMap parser (pre ++ post) := by
  have hstep : ∀ m, normalizeStep parser m st = m := by
    intro m
    unfold normalizeStep
    dsimp only
    unfold noiseFiltered at hfilter
    cases h1 : (hasPrefixGo (removeAccent (toLowerGo st.name)) "kiet" ||
        hasPrefixGo (removeAccent (toLowerGo st.name)) "hem" ||
        hasPrefixGo (removeAccent (toLowerGo st.name)) "cau" ||
        hasPrefixGo (removeAccent (toLowerGo st.name)) "vong xuyen") with
    | true => rw [if_pos rfl]
    | false =>
      rw [h1, Bool.false_or] at hfilter
      rw [if_neg Bool.false_ne_true, if_pos hfilter]
  unfold buildNameMap
  rw [List.foldl_append, List.foldl_append, List.foldl_cons, hstep]

set_option maxHeartbeats 4000000 in
set_option maxRecDepth 100000 in
/-- C6 (witness): the spec scenario `Kiệt 5` (folded `kiet 5`), inserted
into the empty street list, contributes nothing. -/
theorem noise_filtered_streets_reach_no_bucket_witness :
    noiseFiltered (removeAccent (toLowerGo noiseStreet.name)) = true ∧
      buildNameMap constParser ([] ++ noiseStreet :: []) = buildNameMap constParser ([] ++ []) :=
  ⟨by decide, noise_filtered_streets_reach_no_bucket constParser [] [] noiseStreet (by decide)⟩

theorem classLoop_of_housenumber :
    ∀ (cls : List Classification) (acc : String),
      (∃ c ∈ cls, c.label = "housenumber") → classLoop cls acc = "" := by
  intro cls
  induction cls with
  | nil =>
    intro acc h
    obtain ⟨c, hc, _⟩ := h
    exact absurd hc (List.not_mem_nil c)
  | cons c rest ih =>
    intro acc h
    unfold classLoop
    by_cases hh : c.label = "housenumber"
    · rw [if_pos hh]
    · rw [if_neg hh]
      have h2 : ∃ d ∈ rest, d.label = "housenumber" := by
        obtain ⟨d, hd, hl⟩ := h
        rcases List.mem_cons.mp hd with h3 | h3
        · exact absurd (h3 ▸ hl) hh
        · exact ⟨d, h3, hl⟩
      by_cases hs : c.label = "street"
      · rw [if_pos hs]
        exact ih _ h2
      · rw [if_neg hs]
        exact ih _ h2

theorem classLoop_no_housenumber :
    ∀ (cls : List Classification) (acc : String),
      (∀ c ∈ cls, ¬c.label = "housenumber") →
      classLoop cls acc =
        ((((cls.filter fun c => c.label = "street").getLast?).map Classification.value).getD acc) := by
  intro cls
  induction cls with
  | nil => intro acc _; rfl
  | cons c rest ih =>
    intro acc h
    unfold classLoop
    rw [if_neg (h c (List.mem_cons_self c rest))]
    by_cases hs : c.label = "street"
    · rw [if_pos hs, ih c.value fun d hd => h d (List.mem_cons_of_mem _ hd)]
      rw [List.filter_cons_of_pos (by simpa using hs), List.getLast?_cons]
      cases hfl : (rest.filter fun d => d.label = "street").getLast? <;> simp [hfl]
    · rw [if_neg hs, ih acc fun d hd => h d (List.mem_cons_of_mem _ hd)]
      rw [List.filter_cons_of_neg (by simpa using hs)]

theorem streetNameFromResponse_key (r : Response) (hr : r.solutions ≠ []) :
    streetNameFromResponse r =
      (if 0 < (headClassifications r).length then classLoop (headClassifications r) "" else "") := by
  obtain ⟨sols⟩ := r
  cases sols with
  | nil => exact absurd rfl hr
  | cons s ss =>
    unfold streetNameFromResponse headClassifications
    dsimp only [List.headD]
    by_cases hc : 0 < s.classifications.length
    · rw [if_pos ⟨by simp, hc⟩, if_pos hc]
    · rw [if_neg (by simpa using hc), if_neg hc]

/-- C7.  `streetNameParser` consults only `solutions[0].classifications`:
if any classification there is labelled `housenumber` the result is `""`;
otherwise the result is the value of the (last) classification labelled
`street`, and `""` when there is none; and two responses with nonempty
solution lists agreeing on `solutions[0].classifications` give the same
result. -/
theorem streetNameParser_first_solution_rule (r : Response) :
    ((∃ c ∈ headClassifications r, c.label = "housenumber") →
      streetNameFromResponse r = "") ∧
    ((∀ c ∈ headClassifications r, ¬c.label = "housenumber") →
      streetNameFromResponse r = lastStreetValue (headClassifications r)) ∧
    (∀ r2 : Response, r.solutions ≠ [] → r2.solutions ≠ [] →
      headClassifications r = headClassifications r2 →
      streetNameFromResponse r = streetNameFromResponse r2) := by
  refine ⟨?_, ?_, ?_⟩
  · intro h
    have hr : r.solutions ≠ [] := by
      obtain ⟨c, hc, _⟩ := h
      obtain ⟨sols⟩ := r
      cases sols with
      | nil => exact absurd hc (List.not_mem_nil c)
      | cons s ss => simp
    rw [streetNameFromResponse_key r hr]
    obtain ⟨c, hc, hl⟩ := h
    rw [if_pos (List.length_pos.mpr (List.ne_nil_of_mem hc))]
    exact classLoop_of_housenumber _ _ ⟨c, hc, hl⟩
  · intro h
    obtain ⟨sols⟩ := r
    cases sols with
    | nil => rfl
    | cons s ss =>
      rw [streetNameFromResponse_key ⟨s :: ss⟩ (by simp)]
      by_cases hc : 0 < (headClassifications ⟨s :: ss⟩).length
      · rw [if_pos hc, classLoop_no_housenumber _ _ h]
        rfl
      · rw [if_neg hc]
        have : headClassifications ⟨s :: ss⟩ = [] := by
          cases hx : headClassifications ⟨s :: ss⟩ with
          | nil => rfl
          | cons a l => rw [hx] at hc; exact absurd (by simp) hc
        rw [this]
        rfl
  · intro r2 h1 h2 hEq
    rw [streetNameFromResponse_key r h1, streetNameFromResponse_key r2 h2, hEq]

set_option maxHeartbeats 4000000 in
set_option maxRecDepth 100000 in
/-- C7 (witness): a response carrying a `housenumber` (result dropped)
and one carrying two `street` classifications (the last value wins). -/
theorem streetNameParser_first_solution_rule_witness :
    (∃ c ∈ headClassifications ⟨[⟨1, [⟨"5", "housenumber"⟩, ⟨"x", "street"⟩]⟩]⟩,
      c.label = "housenumber") ∧
    streetNameFromResponse ⟨[⟨1, [⟨"5", "housenumber"⟩, ⟨"x", "street"⟩]⟩]⟩ = "" ∧
    streetNameFromResponse ⟨[⟨1, [⟨"x", "street"⟩, ⟨"y", "street"⟩]⟩]⟩ =
      lastStreetValue (headClassifications ⟨[⟨1, [⟨"x", "street"⟩, ⟨"y", "street"⟩]⟩]⟩) :=
  ⟨by decide,
    (streetNameParser_first_solution_rule _).1 (by decide),
    (streetNameParser_first_solution_rule _).2.1 (by decide)⟩

theorem getD_sourceArr_mem (j : Nat) (c : Char) (h : sourceArr.getD j none = some c) :
    c ∈ SOURCE_CHARACTERS := by
  rw [List.getD_eq_getElem?_getD] at h
  have hmem : some c ∈ sourceArr := by
    cases hg : sourceArr[j]? with
    | none => rw [hg] at h; exact absurd h (by simp)
    | some o => rw [hg] at h; exact h ▸ List.getElem?_mem hg
  unfold sourceArr at hmem
  rcases List.mem_append.mp hmem with h1 | h2
  · obtain ⟨x, hx, hex⟩ := List.mem_map.mp h1
    cases hex
    exact hx
  · simp at h2

/-- The binary search only ever returns a nonnegative index on an exact
hit, so a hit means the key occurs in the (source) table. -/
theorem binarySearch_result_mem :
    ∀ (fuel : Nat) (key : Char) (low high : ℤ),
      0 ≤ binarySearch sourceArr key fuel low high → key ∈ SOURCE_CHARACTERS := by
  intro fuel
  induction fuel with
  | zero =>
    intro key low high hres
    exact absurd hres (by norm_num [binarySearch])
  | succ n ih =>
    intro key low high hres
    rw [binarySearch] at hres
    by_cases hlt : high < low
    · rw [if_pos hlt] at hres
      exact absurd hres (by norm_num)
    · rw [if_neg hlt] at hres
      dsimp only at hres
      split at hres
      · exact ih key _ _ hres
      · rename_i c heq
        by_cases hkc : key = c
        · exact hkc ▸ getD_sourceArr_mem _ _ heq
        · rw [if_neg hkc] at hres
          by_cases hlt2 : key < c
          · rw [if_pos hlt2] at hres
            exact ih key low ((low + high) / 2 - 1) hres
          · rw [if_neg hlt2] at hres
            exact ih key ((low + high) / 2 + 1) high hres

theorem replacePass_singleton (c : Char) (h : ∀ p ∈ replacePairs, ¬c = p.1) :
    replacePass [c] = [c] := by
  unfold replacePass
  suffices H : ∀ ps : List (Char × Char), (∀ p ∈ ps, ¬c = p.1) →
      ps.foldl (fun l p => l.map fun d => if d = p.1 then p.2 else d) [c] = [c] from
    H replacePairs h
  intro ps
  induction ps with
  | nil => intro _; rfl
  | cons p ps ih =>
    intro h
    rw [List.foldl_cons]
    have hone : [c].map (fun d => if d = p.1 then p.2 else d) = [c] := by
      simp [if_neg (h p (List.mem_cons_self p ps))]
    rw [hone]
    exact ih fun q hq => h q (List.mem_cons_of_mem _ hq)

theorem removeAccent_pass_through (c : Char) (hc : c ∉ SOURCE_CHARACTERS)
    (hd : ¬ c = 'ð') (hi : ¬ c = 'į') : removeAccent ⟨[c]⟩ = ⟨[c]⟩ := by
  unfold removeAccent
  have hrep : replacePass (String.mk [c]).data = [c] := by
    refine replacePass_singleton c ?_
    intro p hp hcp
    rcases (by decide : ∀ p ∈ replacePairs, p.1 ∈ SOURCE_CHARACTERS ∨ p.1 = 'ð' ∨ p.1 = 'į')
      p hp with h1 | h1 | h1
    · exact hc (hcp ▸ h1)
    · exact hd (hcp.trans h1)
    · exact hi (hcp.trans h1)
  rw [hrep]
  have hrc : removeAccentChar c = c := by
    unfold removeAccentChar
    dsimp only
    by_cases h0 : 0 ≤ binarySearch sourceArr c (sourceArr.length + 1) 0 (LL_LENGTH : ℤ)
    · exact absurd (binarySearch_result_mem (sourceArr.length + 1) c 0 (LL_LENGTH : ℤ) h0) hc
    · rw [if_neg h0]
  rw [List.map_singleton, hrc]

set_option maxHeartbeats 4000000 in
set_option maxRecDepth 100000 in
/-- C8 (counterexample).  Both halves of the claim fail: the table entry
`Ỹ` (in the out-of-order tail block of the unsorted table, missed by the
binary search and absent from the replace pre-pass) passes through
unchanged instead of folding to `y`, while `ð`, which is not in the
table, is nevertheless rewritten to `d` by the pre-pass. -/
theorem removeAccent_table_exceptions :
    ('Ỹ' ∈ SOURCE_CHARACTERS ∧ removeAccent "Ỹ" = "Ỹ") ∧
      ('ð' ∉ SOURCE_CHARACTERS ∧ removeAccent "ð" = "d") := by
  refine ⟨⟨by decide, by decide⟩, ⟨by decide, by decide⟩⟩

set_option maxHeartbeats 4000000 in
set_option maxRecDepth 100000 in
/-- C8 (amended).  What `removeAccent` actually realises: every table
code point folds to its destination except the four uppercase entries
`Ỹ Ỳ Ỷ Ỵ` of the unsorted tail block, which pass through unchanged; code
points outside the table pass through unchanged except `ð → d` and
`į → i` from the replace pre-pass; in particular the lowercase examples
`ố → o`, `ằ → a`, `đ → d`, `ỷ → y` hold and
`removeAccent "hoàng quốc việt" = "hoang quoc viet"`. -/
theorem removeAccent_table_behaviour :
    ((SOURCE_CHARACTERS.zip DESTINATION_CHARACTERS).all fun p =>
      decide (removeAccent ⟨[p.1]⟩ = ⟨[p.2]⟩) || decide (p.1 ∈ ['Ỹ', 'Ỳ', 'Ỷ', 'Ỵ'])) = true ∧
    (['Ỹ', 'Ỳ', 'Ỷ', 'Ỵ'].all fun c =>
      decide (c ∈ SOURCE_CHARACTERS) && decide (removeAccent ⟨[c]⟩ = ⟨[c]⟩)) = true ∧
    (∀ c : Char, c ∉ SOURCE_CHARACTERS → ¬ c = 'ð' → ¬ c = 'į' →
      removeAccent ⟨[c]⟩ = ⟨[c]⟩) ∧
    removeAccent "ð" = "d" ∧ removeAccent "į" = "i" ∧
    removeAccent "ố" = "o" ∧ removeAccent "ằ" = "a" ∧ removeAccent "đ" = "d" ∧
    removeAccent "ỷ" = "y" ∧ removeAccent "hoàng quốc việt" = "hoang quoc viet" :=
  ⟨by decide, by decide, removeAccent_pass_through, by decide, by decide, by decide,
    by decide, by decide, by decide, by decide⟩

set_option maxHeartbeats 4000000 in
set_option maxRecDepth 100000 in
/-- C8 (amended, witness): the universal pass-through conjunct applied at
the concrete code point `z`. -/
theorem removeAccent_table_behaviour_witness :
    ('z' ∉ SOURCE_CHARACTERS ∧ ¬ 'z' = 'ð' ∧ ¬ 'z' = 'į') ∧
      removeAccent ⟨['z']⟩ = ⟨['z']⟩ :=
  ⟨⟨by decide, by decide, by decide⟩,
    removeAccent_table_behaviour.2.2.1 'z' (by decide) (by decide) (by decide)⟩

/-- C9.  The proximity-partitioning loop of `joinStreets` terminates on
every finite fragment list: every continuing iteration strictly decreases
the measure (an admission or an exhausted pass removes an element, and a
scan in between only ever advances `i` toward the end of the shrinking
list), so iterating the loop body from the initial state reaches the exit
condition after finitely many steps. -/
theorem proximity_partition_terminates :
    (∀ s : ProxState, s.i < s.strs.length → proxMeasure (proxStep s) < proxMeasure s) ∧
    (∀ strs : List Street, ∃ n, proxDone (proxIter n (initProxState strs)) = true) :=
  ⟨proxStep_measure_lt, fun strs => proxIter_done_of_measure (proxMeasure (initProxState strs)) (initProxState strs) le_rfl⟩

set_option maxHeartbeats 4000000 in
set_option maxRecDepth 100000 in
/-- C9 (witness): both conjuncts applied to the concrete one-street
bucket. -/
theorem proximity_partition_terminates_witness :
    (initProxState [fragA]).i < (initProxState [fragA]).strs.length ∧
      proxMeasure (proxStep (initProxState [fragA])) < proxMeasure (initProxState [fragA]) ∧
      ∃ n, proxDone (proxIter n (initProxState [fragA])) = true :=
  ⟨by decide, proximity_partition_terminates.1 (initProxState [fragA]) (by decide),
    proximity_partition_terminates.2 [fragA]⟩

end Pbf
